import Mathlib

/-!
Verification of the huawei-mcp-server catalog/collection pipeline.

The development shallowly embeds the two Python source files:
  * `mcp_collect.py` — connect to an MCP server, list its tools, build a
    name → schema mapping and persist it to a JSON file;
  * `skills/huawei-mcp-layered/scripts/hierarchy_query.py` — parse the
    README product table into Group → Product records, look products up,
    infer a launch command from the repository path, and orchestrate the
    collection subprocess.

Pure string manipulation is modelled on `List Char` so that every
definition evaluates by `rfl`/`decide`.  Filesystem state is a total map
from path to optional artifact; process/session behaviour is modelled by
an explicit outcome datatype.
-/

namespace HuaweiMcp

/-! ## Character-list string primitives

These mirror the Python string operations used by the sources.  They are
defined on `List Char` (structural recursion) so concrete runs reduce. -/

/-- If `pat` is an initial run of `s`, return the rest of `s` after it
(the semantics of Python `s.startswith(pat)` together with the cut). -/
def eatPat : List Char → List Char → Option (List Char)
  | [], s => some s
  | _, [] => none
  | p :: ps, c :: cs => if p = c then eatPat ps cs else none

/-- Fuelled worker for `removeAll`.  Each step either deletes one
occurrence of `pat` at the current position or keeps one character, so
`s.length` fuel always suffices. -/
def removeAllFuel : Nat → List Char → List Char → List Char
  | 0, _, s => s
  | _ + 1, _, [] => []
  | fuel + 1, pat, c :: cs =>
    match eatPat pat (c :: cs) with
    | some rest => removeAllFuel fuel pat rest
    | none => c :: removeAllFuel fuel pat cs

/-- Python `s.replace(pat, "")`: delete every (left-to-right,
non-overlapping) occurrence of `pat` in `s`. -/
def removeAll (pat s : String) : String :=
  ⟨removeAllFuel s.toList.length pat.toList s.toList⟩

/-- Split a character list on `'/'` (used to model `pathlib` names). -/
def splitSlash : List Char → List (List Char)
  | [] => [[]]
  | c :: cs =>
    if c = '/' then [] :: splitSlash cs
    else match splitSlash cs with
      | h :: t => (c :: h) :: t
      | [] => [[c]]

/-- Python `pathlib.Path(p).name`: the last path component, with empty
components and `"."` components dropped (pathlib normalises those away);
`""` when nothing remains. -/
def pathName (p : String) : String :=
  match ((splitSlash p.toList).map (fun l => String.mk l)).filter
      (fun s => s != "" && s != ".") |>.getLast? with
  | some s => s
  | none => ""

/-- Python `s.lower()` (ASCII case folding, which covers every string the
sources compare). -/
def lowerStr (s : String) : String := ⟨s.toList.map Char.toLower⟩

/-! ## JSON-like values

The schemas travelling through `mcp_collect.py` are opaque JSON
documents; `JVal` is enough structure to express presence, nullness and
Python truthiness. -/

/-- A JSON-like value. -/
inductive JVal where
  | null
  | bool (b : Bool)
  | num (n : Int)
  | str (s : String)
  | arr (xs : List JVal)
  | obj (fields : List (String × JVal))

/-- Python truthiness of a `JVal` (`None`, `0`, `""`, `[]`, `{}` and
`False` are falsy). -/
def JVal.truthy : JVal → Bool
  | .null => false
  | .bool b => b
  | .num n => n != 0
  | .str s => s != ""
  | .arr xs => !xs.isEmpty
  | .obj fs => !fs.isEmpty

/-! ## mcp_collect.py -/

/-- One tool object of the upstream `list_tools` response.  An `Option`
field models attribute presence: `none` means the attribute does not
exist on the object (Python `hasattr`/`getattr` probing). -/
structure Tool where
  name : String
  description : String
  inputSchema : Option JVal
  parameters : Option JVal

/-- `hasattr(tool, 'inputSchema') and tool.inputSchema` of
`mcp_collect.py` line 55. -/
def hasTruthyInputSchema (t : Tool) : Bool :=
  match t.inputSchema with
  | some v => v.truthy
  | none => false

/-- One entry of the persisted schemas dictionary.  `inputSchema` is the
stored JSON value (`JVal.null` when the source stores `None`);
`parameters = none` means the `"parameters"` key is absent from the
entry. -/
structure ToolEntry where
  description : String
  inputSchema : JVal
  parameters : Option JVal

/-- The entry `mcp_collect.py` lines 55-68 builds for one tool: with a
truthy input schema the entry carries the schema and
`getattr(tool, 'parameters', {})`; otherwise it carries
`inputSchema: None` and no `parameters` key. -/
def entryOf (t : Tool) : ToolEntry :=
  if hasTruthyInputSchema t then
    { description := t.description,
      inputSchema := t.inputSchema.getD JVal.null,
      parameters := some (t.parameters.getD (JVal.obj [])) }
  else
    { description := t.description, inputSchema := JVal.null, parameters := none }

/-- Python `dict` assignment `d[k] = v`: update in place when the key
exists (keeping its position), append otherwise. -/
def dictInsert (d : List (String × ToolEntry)) (k : String) (v : ToolEntry) :
    List (String × ToolEntry) :=
  if d.any (fun p => p.1 == k) then
    d.map (fun p => if p.1 == k then (k, v) else p)
  else d ++ [(k, v)]

/-- The `schemas[tool.name] = {...}` loop of `mcp_collect.py` lines
51-68, over the listed tools in response order. -/
def collectSchemas (tools : List Tool) : List (String × ToolEntry) :=
  tools.foldl (fun d t => dictInsert d t.name (entryOf t)) []

/-- What the stdio session did: it either produced the tool list or
failed somewhere (connection failure, protocol error, process error —
any exception reaching the `except` of `mcp_collect.py` line 74). -/
inductive SessionOutcome where
  | ok (tools : List Tool)
  | fail (msg : String)

/-- `get_server_schemas` of `mcp_collect.py` lines 14-76.  The
`try`/`except` around the whole session turns any failure into the
normal return value `{}` (line 76); no exception escapes. -/
def get_server_schemas : SessionOutcome → Except String (List (String × ToolEntry))
  | SessionOutcome.ok tools => Except.ok (collectSchemas tools)
  | SessionOutcome.fail _ => Except.ok []

/-- The persisted JSON artifact: a top-level JSON object, as an ordered
key/value list. -/
abbrev Artifact := List (String × ToolEntry)

/-- Filesystem state: what artifact (if any) each path holds. -/
abbrev FS := String → Option Artifact

/-- `save_schemas_to_file` of `mcp_collect.py` lines 78-82: `open(filename,
'w')` followed by `json.dump(schemas, f)` — the file at `filename` is
replaced wholesale by the dumped mapping. -/
def save_schemas_to_file (fs : FS) (filename : String) (schemas : Artifact) : FS :=
  fun p => if p = filename then some schemas else fs p

/-- Key lookup inside a stored artifact object. -/
def lookupKey (a : Artifact) (k : String) : Option ToolEntry :=
  match a.find? (fun p => p.1 == k) with
  | some p => some p.2
  | none => none

/-- `main` of `mcp_collect.py` lines 84-111 after argument parsing: run
the collection, then `if schemas: save_schemas_to_file(...)` — only a
truthy (non-empty) mapping is written. -/
def pyMain (fs : FS) (output : String) (o : SessionOutcome) : FS :=
  match get_server_schemas o with
  | Except.ok schemas =>
      if schemas.isEmpty then fs else save_schemas_to_file fs output schemas
  | Except.error _ => fs

/-! ## hierarchy_query.py -/

/-- One catalog leaf (`ProductRecord` dataclass, hierarchy_query.py
lines 21-26). -/
structure ProductRecord where
  group : String
  product_name : String
  product_short : String
  repo_path : Option String
deriving DecidableEq

/-- One `<tr>` row of the README table after the cell regex and markup
stripping of hierarchy_query.py lines 30-37: `cells` is the cleaned
`<td>` texts in order, `repoPath` the href suffix after the
`mcp-server/tree/master-dev/` marker when the row carries one
(lines 38-45). -/
structure Row where
  cells : List String
  repoPath : Option String
deriving DecidableEq

/-- The row loop of `_extract_rows` (hierarchy_query.py lines 33-65) with
the running `current_group`: a 3-cell row re-establishes the group from
its first cell, a 2-cell row is kept only under a truthy group
(`len(cleaned) == 2 and current_group`), every other row is skipped; a
record's group is `current_group or "未分组"`. -/
def _extract_rows_aux : Option String → List Row → List ProductRecord
  | _, [] => []
  | cg, r :: rs =>
    match r.cells with
    | [c0, c1, c2] =>
        { group := if c0 = "" then "未分组" else c0,
          product_name := c1, product_short := c2, repo_path := r.repoPath }
          :: _extract_rows_aux (some c0) rs
    | [c0, c1] =>
        match cg with
        | some g =>
            if g = "" then _extract_rows_aux cg rs
            else
              { group := g, product_name := c0, product_short := c1,
                repo_path := r.repoPath } :: _extract_rows_aux cg rs
        | none => _extract_rows_aux cg rs
    | _ => _extract_rows_aux cg rs

/-- `_extract_rows` (hierarchy_query.py lines 29-67): the row loop
started with `current_group = None`. -/
def _extract_rows (rows : List Row) : List ProductRecord :=
  _extract_rows_aux none rows

/-- The in-memory hierarchy: a Python `dict` from group name to record
list, kept as an insertion-ordered association list. -/
abbrev Hierarchy := List (String × List ProductRecord)

/-- One step of `hierarchy.setdefault(item.group, []).append(item)`
(hierarchy_query.py line 78). -/
def addToHierarchy : Hierarchy → ProductRecord → Hierarchy
  | [], r => [(r.group, [r])]
  | (g, rs) :: t, r =>
      if g = r.group then (g, rs ++ [r]) :: t
      else (g, rs) :: addToHierarchy t r

/-- The grouping loop of `load_hierarchy` (hierarchy_query.py lines
76-79). -/
def buildHierarchy (records : List ProductRecord) : Hierarchy :=
  records.foldl addToHierarchy []

/-- A source document, abstracted at the point after the
`re.search(r"<table.*?</table>", content, re.S)` of hierarchy_query.py
line 72: `none` when the document holds no such table region, otherwise
the table's rows. -/
abbrev Doc := Option (List Row)

/-- `load_hierarchy` (hierarchy_query.py lines 70-80): no table region
raises `RuntimeError`; otherwise the extracted records are grouped. -/
def load_hierarchy : Doc → Except String Hierarchy
  | none => Except.error "在 README_zh.md 中没有找到产品表格。"
  | some rows => Except.ok (buildHierarchy (_extract_rows rows))

/-- Insert into a lexicographically sorted list of strings (worker for
Python `sorted`). -/
def insertSorted (s : String) : List String → List String
  | [] => [s]
  | t :: ts => if s ≤ t then s :: t :: ts else t :: insertSorted s ts

/-- The group names `list_groups` prints (hierarchy_query.py lines
92-95): `sorted(hierarchy)`, the keys in lexicographic order. -/
def list_groups (h : Hierarchy) : List String :=
  (h.map Prod.fst).foldr insertSorted []

/-- `hierarchy.get(group_name, [])` (hierarchy_query.py line 110). -/
def hget (h : Hierarchy) (g : String) : List ProductRecord :=
  match h.find? (fun p => p.1 == g) with
  | some p => p.2
  | none => []

/-- The per-record test of `find_product` (hierarchy_query.py line 112):
`item.product_name == product or item.product_short.lower() ==
product.lower()` — one boolean, checked record by record in a single
pass. -/
def matchesQuery (product : String) (item : ProductRecord) : Bool :=
  item.product_name == product || lowerStr item.product_short == lowerStr product

/-- `find_product` (hierarchy_query.py lines 110-114): first record of
the group satisfying `matchesQuery`, else `ValueError`. -/
def find_product (h : Hierarchy) (group_name product : String) :
    Except String ProductRecord :=
  match (hget h group_name).find? (matchesQuery product) with
  | some item => Except.ok item
  | none => Except.error ("在分组 " ++ group_name ++ " 中未找到产品: " ++ product)

/-- `infer_server_command` (hierarchy_query.py lines 83-89).  Note the
guard `if not record.repo_path` also rejects the empty string, and the
body uses `repo_name.replace('mcp_server_', '')`, which deletes EVERY
occurrence of the token, not only the leading one. -/
def infer_server_command (record : ProductRecord) : Option String :=
  match record.repo_path with
  | none => none
  | some p =>
      if p = "" then none
      else
        let repo_name := pathName p
        if (eatPat "mcp_server_".toList repo_name.toList).isSome then
          some ("mcp-server-" ++ removeAll "mcp_server_" repo_name)
        else none

/-- The command-inference rule as a function of the repository path
alone, with the replace-all behaviour the code actually has (the amended
form of the spec's rule): absent or empty path → absent; a final segment
beginning with `mcp_server_` → `mcp-server-` followed by the segment
with every occurrence of `mcp_server_` deleted; otherwise absent. -/
def inferFromRepoPath : Option String → Option String
  | none => none
  | some p =>
      if p = "" then none
      else
        if (eatPat "mcp_server_".toList (pathName p).toList).isSome then
          some ("mcp-server-" ++ removeAll "mcp_server_" (pathName p))
        else none

/-- The inference rule exactly as the spec words it: strip the leading
`mcp_server_` token ONCE and keep the remainder of the segment
unchanged.  Written from the spec's sentence, for comparison with the
code's `infer_server_command`. -/
def inferSpecStripOnce : Option String → Option String
  | none => none
  | some p =>
      match eatPat "mcp_server_".toList (pathName p).toList with
      | some rest => some ("mcp-server-" ++ String.mk rest)
      | none => none

/-- What one `collect_api` invocation did: the filesystem afterwards,
the collector subprocess invocations it made (command, output path), and
the error it raised, if any. -/
structure CollectRun where
  fs : FS
  collectorCalls : List (String × String)
  error : Option String

/-- `collect_api` (hierarchy_query.py lines 117-131): no inferable
command raises `RuntimeError` before anything is run; otherwise
`mcp_collect.py --command command --output output` is run as a
subprocess, whose effect on the filesystem is `pyMain`. -/
def collect_api (fs : FS) (record : ProductRecord) (output : String)
    (o : SessionOutcome) : CollectRun :=
  match infer_server_command record with
  | none =>
      { fs := fs, collectorCalls := [],
        error := some ("产品 " ++ record.product_name ++ " 缺少可推断的启动命令。") }
  | some command =>
      { fs := pyMain fs output o, collectorCalls := [(command, output)],
        error := none }

/-! ## Concrete fixtures used by witnesses and counterexamples -/

/-- A pre-existing artifact entry under the key `"mcp-server-ecs"`. -/
def entEcs : ToolEntry := { description := "old", inputSchema := JVal.null, parameters := none }

/-- A filesystem whose output path already holds an artifact with the
unrelated key `"mcp-server-ecs"`. -/
def fsWithEcs : FS :=
  fun p => if p = "mcp_schemas.json" then some [("mcp-server-ecs", entEcs)] else none

/-- The mapping produced by a fresh collection run (keyed by tool name). -/
def newRun : Artifact :=
  [("toolA", { description := "a", inputSchema := JVal.null, parameters := none })]

/-- An empty filesystem. -/
def fsEmpty : FS := fun _ => none

/-- A record whose repository path repeats the `mcp_server_` token
inside the final segment. -/
def recDouble : ProductRecord :=
  { group := "G", product_name := "X", product_short := "x",
    repo_path := some "foo/mcp_server_mcp_server_x" }

/-- A record with no repository path (no inferable command). -/
def recNoRepo : ProductRecord :=
  { group := "G", product_name := "P", product_short := "p", repo_path := none }

/-- Earlier record: its short alias `"ECS"` matches the query `"ecs"`
case-insensitively. -/
def recShortAlias : ProductRecord :=
  { group := "G", product_name := "A", product_short := "ECS", repo_path := none }

/-- Later record: its full name is exactly the query `"ecs"`. -/
def recExactName : ProductRecord :=
  { group := "G", product_name := "ecs", product_short := "B", repo_path := none }

/-- A one-group hierarchy holding `recShortAlias` before `recExactName`. -/
def hPriority : Hierarchy := buildHierarchy [recShortAlias, recExactName]

/-- A two-cell product row. -/
def rowTwoCell : Row := { cells := ["Bare Metal Server", "BMS"], repoPath := none }

/-- A tool exposing a truthy input schema but no `parameters` attribute. -/
def toolNoParams : Tool :=
  { name := "create_server", description := "d",
    inputSchema := some (JVal.obj [("type", JVal.str "object")]), parameters := none }

/-! ## Helper lemmas -/

/-- A pointwise-false predicate makes `List.any` false. -/
theorem any_eq_false_of_forall {α : Type} (q : α → Bool) (d : List α)
    (h : ∀ x ∈ d, q x = false) : d.any q = false := by
  induction d with
  | nil => rfl
  | cons a t ih =>
      simp only [List.any_cons, Bool.or_eq_false_iff]
      exact ⟨h a (by simp), ih fun x hx => h x (List.mem_cons_of_mem _ hx)⟩

/-- Inserting a fresh key into a Python dict appends it. -/
theorem dictInsert_new (d : List (String × ToolEntry)) (k : String) (v : ToolEntry)
    (h : ∀ p ∈ d, p.1 ≠ k) : dictInsert d k v = d ++ [(k, v)] := by
  have hany : d.any (fun p => p.1 == k) = false :=
    any_eq_false_of_forall _ d fun p hp => by
      simpa using h p hp
  simp [dictInsert, hany]

/-- Folding the collection loop over tools with pairwise-fresh names
appends one entry per tool, in order. -/
theorem collectFold_keys (tools : List Tool) :
    ∀ d : List (String × ToolEntry),
      (∀ t ∈ tools, ∀ p ∈ d, p.1 ≠ t.name) →
      (tools.map Tool.name).Nodup →
      (tools.foldl (fun acc t => dictInsert acc t.name (entryOf t)) d).map Prod.fst
        = d.map Prod.fst ++ tools.map Tool.name := by
  induction tools with
  | nil => intro d _ _; simp
  | cons t ts ih =>
      intro d hdisj hn
      have hstep : dictInsert d t.name (entryOf t) = d ++ [(t.name, entryOf t)] :=
        dictInsert_new d t.name (entryOf t) (hdisj t (by simp))
      have hn' : (ts.map Tool.name).Nodup := (List.nodup_cons.mp hn).2
      have hnotin : t.name ∉ ts.map Tool.name := (List.nodup_cons.mp hn).1
      have hdisj' : ∀ u ∈ ts, ∀ p ∈ d ++ [(t.name, entryOf t)], p.1 ≠ u.name := by
        intro u hu p hp
        rcases List.mem_append.mp hp with hp | hp
        · exact hdisj u (List.mem_cons_of_mem _ hu) p hp
        · have hpq : p = (t.name, entryOf t) := by simpa using hp
          subst hpq
          intro hcontra
          have hname : t.name = u.name := hcontra
          exact hnotin (by rw [hname]; exact List.mem_map_of_mem Tool.name hu)
      calc ((t :: ts).foldl (fun acc u => dictInsert acc u.name (entryOf u)) d).map Prod.fst
          = (ts.foldl (fun acc u => dictInsert acc u.name (entryOf u))
              (d ++ [(t.name, entryOf t)])).map Prod.fst := by
            simp [List.foldl_cons, hstep]
        _ = (d ++ [(t.name, entryOf t)]).map Prod.fst ++ ts.map Tool.name :=
            ih _ hdisj' hn'
        _ = d.map Prod.fst ++ (t :: ts).map Tool.name := by simp

/-- `List.find?` returns the first hit: the list splits around the found
element with every earlier element failing the predicate. -/
theorem find_some_split {α : Type} (p : α → Bool) :
    ∀ (l : List α) (a : α), l.find? p = some a →
      ∃ pre post, l = pre ++ a :: post ∧ ∀ x ∈ pre, p x = false := by
  intro l
  induction l with
  | nil => intro a h; simp [List.find?] at h
  | cons b bs ih =>
      intro a h
      by_cases hb : p b
      · rw [List.find?_cons_of_pos _ hb] at h
        obtain rfl : b = a := by simpa using h
        exact ⟨[], bs, rfl, by simp⟩
      · rw [List.find?_cons_of_neg _ hb] at h
        obtain ⟨pre, post, hl, hpre⟩ := ih a h
        refine ⟨b :: pre, post, by simp [hl], ?_⟩
        intro x hx
        rcases List.mem_cons.mp hx with rfl | hx
        · simpa using hb
        · exact hpre x hx

/-- Under an established non-empty group, a run of two-cell rows turns
into one record per row, inheriting that group. -/
theorem extract_aux_two_cells (g : String) (hg : g ≠ "") :
    ∀ rest : List Row, (∀ r ∈ rest, r.cells.length = 2) →
      _extract_rows_aux (some g) rest
        = rest.map (fun r =>
            { group := g, product_name := r.cells.getD 0 "",
              product_short := r.cells.getD 1 "", repo_path := r.repoPath }) := by
  intro rest
  induction rest with
  | nil => intro _; rfl
  | cons r rs ih =>
      intro h2
      obtain ⟨a, b, hab⟩ : ∃ a b, r.cells = [a, b] := by
        have hr := h2 r (by simp)
        cases hc : r.cells with
        | nil => rw [hc] at hr; simp at hr
        | cons a t =>
            cases t with
            | nil => rw [hc] at hr; simp at hr
            | cons b t2 =>
                cases t2 with
                | nil => exact ⟨a, b, rfl⟩
                | cons c t3 => rw [hc] at hr; simp at hr
      have ihr := ih fun x hx => h2 x (List.mem_cons_of_mem _ hx)
      simp [_extract_rows_aux, hab, hg, ihr]

/-- With the current group being the empty string (a three-cell row
whose first cell was empty), a run of two-cell rows is skipped
entirely. -/
theorem extract_aux_skip_two :
    ∀ rest : List Row, (∀ r ∈ rest, r.cells.length = 2) → ∀ l : List Row,
      _extract_rows_aux (some "") (rest ++ l) = _extract_rows_aux (some "") l := by
  intro rest
  induction rest with
  | nil => intro _ l; rfl
  | cons r rs ih =>
      intro h2 l
      obtain ⟨a, b, hab⟩ : ∃ a b, r.cells = [a, b] := by
        have hr := h2 r (by simp)
        cases hc : r.cells with
        | nil => rw [hc] at hr; simp at hr
        | cons a t =>
            cases t with
            | nil => rw [hc] at hr; simp at hr
            | cons b t2 =>
                cases t2 with
                | nil => exact ⟨a, b, rfl⟩
                | cons c t3 => rw [hc] at hr; simp at hr
      have ihr := ih (fun x hx => h2 x (List.mem_cons_of_mem _ hx)) l
      simp [_extract_rows_aux, hab, ihr]

/-! ## Claim C1 -/

/-- C1, counterexample.  Persisting is not merge-by-key: a pre-existing
artifact at the output path holds the unrelated key `"mcp-server-ecs"`,
yet after `save_schemas_to_file` the file holds exactly the new run's
mapping and the old key is gone (it should have been retained with its
previous value). -/
theorem c1_counterexample :
    lookupKey ((fsWithEcs "mcp_schemas.json").getD []) "mcp-server-ecs" = some entEcs ∧
    save_schemas_to_file fsWithEcs "mcp_schemas.json" newRun "mcp_schemas.json" = some newRun ∧
    lookupKey newRun "mcp-server-ecs" = none :=
  ⟨rfl, rfl, rfl⟩

/-- C1, amended.  Persisting the collection result overwrites the output
file wholesale with this run's tool-name-keyed mapping: afterwards the
output path holds exactly the new mapping (so pre-existing keys survive
only if re-collected, and a missing file is freshly created), while
every other path is unchanged. -/
theorem c1_save_overwrites (fs : FS) (filename q : String) (schemas : Artifact) :
    save_schemas_to_file fs filename schemas filename = some schemas ∧
    (q ≠ filename → save_schemas_to_file fs filename schemas q = fs q) := by
  constructor
  · simp [save_schemas_to_file]
  · intro h
    simp [save_schemas_to_file, h]

/-! ## Claim C2 -/

/-- C2, counterexample.  On a connection failure the collection
operation does not raise: it returns the empty mapping as a normal
success value (the `except` of `mcp_collect.py` line 74 returns `{}`). -/
theorem c2_counterexample :
    get_server_schemas (SessionOutcome.fail "connection refused") = Except.ok [] :=
  rfl

/-- C2, amended.  The collection operation never raises an error to the
caller: every session outcome yields a normal return; on connection
failure, protocol error or process failure the returned value is the
empty mapping; on success the returned mapping covers the listed tools —
with pairwise-distinct tool names it has exactly one entry per tool,
keyed by the tool names in response order. -/
theorem c2_collect_absorbs_failure (o : SessionOutcome) (tools : List Tool) (m : String) :
    (∃ v, get_server_schemas o = Except.ok v) ∧
    get_server_schemas (SessionOutcome.fail m) = Except.ok [] ∧
    ((tools.map Tool.name).Nodup →
      (collectSchemas tools).map Prod.fst = tools.map Tool.name) := by
  refine ⟨?_, rfl, ?_⟩
  · cases o with
    | ok tools2 => exact ⟨_, rfl⟩
    | fail m2 => exact ⟨_, rfl⟩
  · intro hn
    have h := collectFold_keys tools [] (by simp) hn
    simpa [collectSchemas] using h

/-! ## Claim C3 -/

/-- C3, counterexample.  The code deletes EVERY occurrence of
`mcp_server_` from the final path segment, not only the leading one: on
`repoPath = "foo/mcp_server_mcp_server_x"` it returns `"mcp-server-x"`,
while the claim's strip-once rule demands
`"mcp-server-mcp_server_x"`. -/
theorem c3_counterexample :
    infer_server_command recDouble = some "mcp-server-x" ∧
    inferSpecStripOnce recDouble.repo_path = some "mcp-server-mcp_server_x" ∧
    infer_server_command recDouble ≠ inferSpecStripOnce recDouble.repo_path := by
  refine ⟨rfl, rfl, ?_⟩
  intro h
  have : ("mcp-server-x" : String) = "mcp-server-mcp_server_x" := by
    injection h
  exact absurd this (by decide)

/-- C3, amended.  `infer` is a pure function of `repoPath` alone and
follows the rule: absent (or empty) `repoPath` gives absent; otherwise,
with `s` the final path segment, if `s` begins with the literal token
`mcp_server_` the result is `"mcp-server-"` concatenated with `s` with
EVERY occurrence of that token deleted (Python `str.replace`), and
absent when `s` does not begin with the token. -/
theorem c3_infer_replace_all (r : ProductRecord) :
    infer_server_command r = inferFromRepoPath r.repo_path := by
  rcases r with ⟨g, n, s, rp⟩
  cases rp with
  | none => rfl
  | some p => rfl

/-! ## Claim C4 -/

/-- C4, counterexample.  There is no exact-name priority pass: with an
earlier record whose short alias `"ECS"` matches the query `"ecs"`
case-insensitively and a later record whose full name is exactly
`"ecs"`, `find_product` returns the earlier record, not the
exact-name match the claim demands. -/
theorem c4_counterexample :
    find_product hPriority "G" "ecs" = Except.ok recShortAlias ∧
    recExactName.product_name = "ecs" ∧
    recShortAlias.product_name ≠ "ecs" ∧
    recShortAlias ≠ recExactName :=
  ⟨rfl, rfl, by decide, by decide⟩

/-- C4, amended.  `find_product` is a single ordered pass: each record
matches when its `productName` equals the query exactly OR its
`productShort` equals it case-insensitively (no priority between the two
tests); the first matching record in insertion order is returned — every
earlier record fails the combined test — and if no record of the group
matches either way an `UnknownProductError` (`ValueError`) is raised. -/
theorem c4_first_match_semantics (h : Hierarchy) (g q : String) :
    (∀ r, find_product h g q = Except.ok r →
      matchesQuery q r = true ∧
      ∃ pre post, hget h g = pre ++ r :: post ∧
        ∀ x ∈ pre, matchesQuery q x = false) ∧
    ((∀ r ∈ hget h g, matchesQuery q r = false) →
      ∃ e, find_product h g q = Except.error e) := by
  constructor
  · intro r hr
    cases hf : (hget h g).find? (matchesQuery q) with
    | none => simp [find_product, hf] at hr
    | some a =>
        have ha : a = r := by simpa [find_product, hf] using hr
        subst ha
        exact ⟨List.find?_some hf, find_some_split _ _ _ hf⟩
  · intro hall
    have hnone : (hget h g).find? (matchesQuery q) = none := by
      rw [List.find?_eq_none]
      intro a ha
      simp [hall a ha]
    refine ⟨"在分组 " ++ g ++ " 中未找到产品: " ++ q, ?_⟩
    simp [find_product, hnone]

/-! ## Claim C5 -/

/-- C5, counterexample.  A three-cell row whose first cell is empty
breaks the row-span law as claimed: one three-cell row followed by one
two-cell row (n = 1) yields one record — not n + 1 = 2 — and that record
carries the fallback group `"未分组"`, not the (empty) first cell. -/
theorem c5_counterexample :
    _extract_rows [{ cells := ["", "n1", "s1"], repoPath := none },
                   { cells := ["a", "b"], repoPath := none }]
      = [{ group := "未分组", product_name := "n1", product_short := "s1",
           repo_path := none }] ∧
    (_extract_rows [{ cells := ["", "n1", "s1"], repoPath := none },
                    { cells := ["a", "b"], repoPath := none }]).length ≠ 1 + 1 :=
  ⟨rfl, by decide⟩

/-- C5, amended.  For every table consisting of one three-cell row WHOSE
FIRST CELL IS NON-EMPTY followed by n two-cell rows, parsing yields
exactly n + 1 records, all carrying the group named in that first cell,
in source row order; a three-cell row (re-)establishes the group from
its first cell, a two-cell row inherits the most recent non-empty group,
and a two-cell row before any such group is silently skipped. -/
theorem c5_rowspan_inheritance (g n s : String) (rp : Option String) (rest : List Row)
    (hg : g ≠ "") (h2 : ∀ r ∈ rest, r.cells.length = 2) :
    _extract_rows ({ cells := [g, n, s], repoPath := rp } :: rest)
      = { group := g, product_name := n, product_short := s, repo_path := rp }
        :: rest.map (fun r =>
            { group := g, product_name := r.cells.getD 0 "",
              product_short := r.cells.getD 1 "", repo_path := r.repoPath }) ∧
    (_extract_rows ({ cells := [g, n, s], repoPath := rp } :: rest)).length
      = rest.length + 1 ∧
    ∀ pr ∈ _extract_rows ({ cells := [g, n, s], repoPath := rp } :: rest),
      pr.group = g := by
  have haux := extract_aux_two_cells g hg rest h2
  have key : _extract_rows ({ cells := [g, n, s], repoPath := rp } :: rest)
      = { group := g, product_name := n, product_short := s, repo_path := rp }
        :: rest.map (fun r =>
            { group := g, product_name := r.cells.getD 0 "",
              product_short := r.cells.getD 1 "", repo_path := r.repoPath }) := by
    simp [_extract_rows, _extract_rows_aux, hg, haux]
  refine ⟨key, ?_, ?_⟩
  · rw [key]
    simp
  · rw [key]
    intro pr hpr
    rcases List.mem_cons.mp hpr with rfl | hpr
    · rfl
    · obtain ⟨r, _, rfl⟩ := List.mem_map.mp hpr
      rfl

/-- C5, witness: a concrete "Compute" run of one three-cell and one
two-cell row parses to two records in source order, both grouped under
"Compute". -/
theorem c5_witness :
    _extract_rows [{ cells := ["Compute", "Elastic Cloud Server", "ECS"], repoPath := none },
                   rowTwoCell]
      = [{ group := "Compute", product_name := "Elastic Cloud Server",
           product_short := "ECS", repo_path := none },
         { group := "Compute", product_name := "Bare Metal Server",
           product_short := "BMS", repo_path := none }] := by
  have h := c5_rowspan_inheritance "Compute" "Elastic Cloud Server" "ECS" none [rowTwoCell]
      (by decide) (by intro r hr; rw [List.mem_singleton] at hr; subst hr; rfl)
  rw [h.1]
  rfl

/-! ## Claim C6 -/

/-- C6.  When the resolved product has no inferable command,
`collect_api` fails with `NoLaunchCommandError` (a `RuntimeError`), the
external collector is never invoked, and the filesystem — in particular
the output path — is unchanged. -/
theorem c6_no_command_no_effect (fs : FS) (record : ProductRecord) (output : String)
    (o : SessionOutcome) (h : infer_server_command record = none) :
    (collect_api fs record output o).fs = fs ∧
    (collect_api fs record output o).collectorCalls = [] ∧
    (collect_api fs record output o).error.isSome = true := by
  unfold collect_api
  rw [h]
  exact ⟨rfl, rfl, rfl⟩

/-- C6, witness: a record with no repository path makes `collect_api`
invoke nothing. -/
theorem c6_witness :
    (collect_api fsEmpty recNoRepo "mcp_schemas.json"
        (SessionOutcome.fail "x")).collectorCalls = [] :=
  (c6_no_command_no_effect fsEmpty recNoRepo "mcp_schemas.json"
    (SessionOutcome.fail "x") rfl).2.1

/-! ## Claim C7 -/

/-- C7.  Parsing fails (with `CatalogFormatError`, a `RuntimeError`) if
and only if the document holds no table region; a document with an empty
table is not an error: it yields the empty record sequence, the empty
hierarchy, and `listGroups` of that hierarchy is empty. -/
theorem c7_no_table_iff_error :
    (∀ d : Doc, (∃ e, load_hierarchy d = Except.error e) ↔ d = none) ∧
    load_hierarchy (some []) = Except.ok [] ∧
    _extract_rows [] = [] ∧
    list_groups [] = [] := by
  refine ⟨?_, rfl, rfl, rfl⟩
  intro d
  constructor
  · rintro ⟨e, he⟩
    cases d with
    | none => rfl
    | some rows => simp [load_hierarchy] at he
  · rintro rfl
    exact ⟨"在 README_zh.md 中没有找到产品表格。", rfl⟩

/-! ## Claim C8 -/

/-- C8, counterexample.  A tool with a truthy input schema and NO
`parameters` attribute still gets a `parameters` field in its persisted
entry, holding the default empty object `{}` — the claim demands the
field be absent. -/
theorem c8_counterexample :
    toolNoParams.parameters = none ∧
    (entryOf toolNoParams).parameters = some (JVal.obj []) ∧
    (entryOf toolNoParams).parameters ≠ none := by
  refine ⟨rfl, rfl, ?_⟩
  intro h
  rw [show (entryOf toolNoParams).parameters = some (JVal.obj []) from rfl] at h
  exact Option.noConfusion h

/-- C8, amended.  For every tool WITH a truthy input schema the
persisted entry always carries a `parameters` field — the upstream value
when the attribute exists, the default empty object `{}` when it does
not — together with the schema itself; for every tool WITHOUT a truthy
input schema the entry stores `inputSchema` as null and carries no
`parameters` field at all. -/
theorem c8_entry_shape (t : Tool) :
    (hasTruthyInputSchema t = true →
      (entryOf t).parameters = some (t.parameters.getD (JVal.obj [])) ∧
      (entryOf t).inputSchema = t.inputSchema.getD JVal.null) ∧
    (hasTruthyInputSchema t = false →
      (entryOf t).parameters = none ∧ (entryOf t).inputSchema = JVal.null) := by
  constructor <;> intro h <;> simp [entryOf, h]

/-! ## Claim C9 -/

/-- C9.  A three-cell row whose first cell is empty after stripping
produces a record grouped under the literal fallback `"未分组"` (not the
empty string), and establishes no usable group context: every following
two-cell row is skipped, until a three-cell row with a non-empty first
cell re-establishes a group and its records carry that new group. -/
theorem c9_empty_group_fallback (b c g2 n2 s2 : String) (rp rp2 : Option String)
    (rest tail : List Row) (cg : Option String)
    (h2 : ∀ r ∈ rest, r.cells.length = 2) :
    _extract_rows_aux cg ({ cells := ["", b, c], repoPath := rp } :: rest)
      = [{ group := "未分组", product_name := b, product_short := c, repo_path := rp }] ∧
    (g2 ≠ "" →
      _extract_rows_aux cg (({ cells := ["", b, c], repoPath := rp } : Row)
          :: (rest ++ ({ cells := [g2, n2, s2], repoPath := rp2 } : Row) :: tail))
        = { group := "未分组", product_name := b, product_short := c, repo_path := rp }
          :: { group := g2, product_name := n2, product_short := s2, repo_path := rp2 }
          :: _extract_rows_aux (some g2) tail) := by
  have hhead : ∀ rs : List Row,
      _extract_rows_aux cg ({ cells := ["", b, c], repoPath := rp } :: rs)
        = { group := "未分组", product_name := b, product_short := c, repo_path := rp }
          :: _extract_rows_aux (some "") rs := by
    intro rs
    simp [_extract_rows_aux]
  constructor
  · rw [hhead rest]
    have hskip := extract_aux_skip_two rest h2 []
    rw [List.append_nil] at hskip
    rw [hskip]
    rfl
  · intro hg2
    rw [hhead (rest ++ ({ cells := [g2, n2, s2], repoPath := rp2 } : Row) :: tail)]
    rw [extract_aux_skip_two rest h2 _]
    simp [_extract_rows_aux, hg2]

/-- C9, witness: a concrete empty-first-cell row followed by a two-cell
row yields exactly the fallback-grouped record. -/
theorem c9_witness :
    _extract_rows_aux none [{ cells := ["", "n1", "s1"], repoPath := none }, rowTwoCell]
      = [{ group := "未分组", product_name := "n1", product_short := "s1",
           repo_path := none }] :=
  (c9_empty_group_fallback "n1" "s1" "X" "Y" "Z" none none [rowTwoCell] [] none
    (by intro r hr; rw [List.mem_singleton] at hr; subst hr; rfl)).1

/-! ## Claim C10 -/

/-- C10.  `main` writes only a truthy (non-empty) mapping: when the
collection result is empty — in particular when a session failure was
absorbed into the empty mapping — no file is written and the whole
filesystem, including any existing file at the output path, is
unchanged; a non-empty mapping is written via `save_schemas_to_file`. -/
theorem c10_empty_mapping_no_write (fs : FS) (output : String) (o : SessionOutcome)
    (m : String) (s : Artifact) (h : get_server_schemas o = Except.ok s) :
    (s = [] → pyMain fs output o = fs) ∧
    (s ≠ [] → pyMain fs output o = save_schemas_to_file fs output s) ∧
    pyMain fs output (SessionOutcome.fail m) = fs := by
  refine ⟨?_, ?_, rfl⟩
  · rintro rfl
    simp [pyMain, h]
  · intro hs
    cases s with
    | nil => exact absurd rfl hs
    | cons a t => simp [pyMain, h]

/-- C10, witness: after an absorbed session failure the pre-existing
artifact at the output path is untouched. -/
theorem c10_witness :
    pyMain fsWithEcs "mcp_schemas.json" (SessionOutcome.fail "boom") = fsWithEcs :=
  (c10_empty_mapping_no_write fsWithEcs "mcp_schemas.json" (SessionOutcome.fail "boom")
    "boom" [] rfl).1 rfl

end HuaweiMcp
